import Mathlib

/-!
Verification development for the `mux` HTTP router (Go).

The definitions below are a shallow embedding of the repository's source
files.  Per file we embed the current version (the first document in each
source file; later documents are historical snapshots).

External collaborators (Go standard library `net/http.ServeMux`,
`encoding/json`) are modelled at their interface boundary: their observable
behaviour on the inputs that matter to the claims is written down as Lean
definitions, documented where they occur.
-/

namespace Mux

/-! ## Response model

Embeds the observable state of an `http.ResponseWriter`: a header map,
the status code actually sent on the wire (0 while unset), and the body
bytes written. -/

structure Resp where
  headers : List (String × String)
  status : Nat
  body : String
deriving Repr, DecidableEq

/-- The zero response-writer state: no headers, unset status, empty body. -/
def emptyResp : Resp := ⟨[], 0, ""⟩

/-- Header maps overwrite by key (`http.Header.Set` semantics): replace the
first entry with the given key, else append. -/
def upsertHeader (k v : String) : List (String × String) → List (String × String)
  | [] => [(k, v)]
  | kv :: rest => if kv.1 = k then (k, v) :: rest else kv :: upsertHeader k v rest

/-- Embeds `w.Header().Set(key, value)`. -/
def Resp.SetHeader (w : Resp) (k v : String) : Resp :=
  { w with headers := upsertHeader k v w.headers }

/-- Looks a response header up by key (first entry wins, as in a Go map
with single `Set`-maintained entries). -/
def Resp.GetHeader (w : Resp) (k : String) : Option String :=
  match w.headers.find? (fun kv => kv.1 = k) with
  | some kv => some kv.2
  | none => none

/-- Embeds `Context.Blob` (src/context.go): set Content-Type when nonempty,
write the status header, then write the data. -/
def Blob (w : Resp) (status : Nat) (contentType : String) (data : String) : Resp :=
  let w := if contentType ≠ "" then w.SetHeader "Content-Type" contentType else w
  { w with status := status, body := w.body ++ data }

/-- Byte-wise (here: code-point-wise) lexicographic comparison, as Go
compares strings; used to model sorted map keys and `sort.Strings`. -/
def charListLe : List Char → List Char → Bool
  | [], _ => true
  | _ :: _, [] => false
  | a :: as, b :: bs =>
    cond (Nat.blt a.toNat b.toNat) true
      (cond (Nat.blt b.toNat a.toNat) false (charListLe as bs))

/-- String comparison on the character sequences. -/
def strLe (a b : String) : Bool := charListLe a.data b.data

/-- Inserts into a sorted list, keeping it sorted (used to model Go
sorting). -/
def insertSorted {α : Type} (le : α → α → Bool) (a : α) : List α → List α
  | [] => [a]
  | b :: l => cond (le a b) (a :: b :: l) (b :: insertSorted le a l)

/-- Insertion sort with a boolean comparison (model of Go `sort`). -/
def sortBy {α : Type} (le : α → α → Bool) : List α → List α
  | [] => []
  | a :: l => insertSorted le a (sortBy le l)

/-- Keeps one copy of every element (model of collecting into a Go map;
the subsequent sort makes the order canonical). -/
def dedupStr : List String → List String
  | [] => []
  | a :: l => cond ((dedupStr l).contains a) (dedupStr l) (a :: dedupStr l)

/-- Go `json.Marshal` of a `map[string]string` value: keys are emitted in
sorted order, values quoted; no added whitespace.  (We do not model string
escaping; all values used by the claims are escape-free.) -/
def goMarshalM (kvs : List (String × String)) : String :=
  "\x7b" ++
    String.intercalate ","
      ((sortBy (fun a b => strLe a.1 b.1) kvs).map
        (fun kv => "\"" ++ kv.1 ++ "\":\"" ++ kv.2 ++ "\"")) ++
  "\x7d"

/-- Embeds `Context.JSON` (src/context.go): marshal, then `Blob` with the
`application/json` content type. -/
def JSONResp (w : Resp) (status : Nat) (kvs : List (String × String)) : Resp :=
  Blob w status "application/json" (goMarshalM kvs)

/-- Embeds the default 404 handler registered in `New` (src/routing.go):
`c.NotFound(M{\x7b"error": "not found"\x7d})`, i.e. HTTP 404 with a JSON body. -/
def defaultOn404 (w : Resp) : Resp :=
  JSONResp w 404 [("error", "not found")]

/-- Embeds the default 405 handler registered in `New` (src/routing.go):
HTTP 405 with body `\x7b"error":"method not allowed"\x7d`. -/
def defaultOn405 (w : Resp) : Resp :=
  JSONResp w 405 [("error", "method not allowed")]

/-- Embeds the default error handler registered in `New` (src/routing.go):
`c.InternalServerError(M{\x7b"error": "internal server error", "message": err.Error()\x7d})`. -/
def defaultOnErr (msg : String) (w : Resp) : Resp :=
  JSONResp w 500 [("error", "internal server error"), ("message", msg)]

/-! ## Pattern matching and dispatch

The router delegates route matching to `net/http.ServeMux` (Go 1.22
method-aware patterns).  Modelled from the spec: the matcher itself is not
repository code; per spec §4.1 literal segments must match exactly, a named
capture matches exactly one path segment, and a named catch-all, legal only
as the final segment, matches all remaining segments.  Precedence between
overlapping patterns is not modelled; the theorems below only use
hypotheses under which at most one registered binding matches. -/

inductive Seg where
  | lit (s : String)
  | capture (name : String)
  | wildcard (name : String)
deriving Repr, DecidableEq, BEq

/-- Splits a character sequence on `/`, accumulating the current segment. -/
def splitPathAux : List Char → List Char → List String
  | [], acc => [⟨acc.reverse⟩]
  | c :: cs, acc =>
    if c = '/' then ⟨acc.reverse⟩ :: splitPathAux cs [] else splitPathAux cs (c :: acc)

/-- Splits a URL path on `/` (so `/users/7` becomes `["", "users", "7"]`). -/
def splitPath (p : String) : List String := splitPathAux p.data []

/-- Modelled from the spec: segment-wise pattern matching of
`net/http.ServeMux` patterns (literal / one-segment capture /
final catch-all). -/
def matchSegs : List Seg → List String → Bool
  | [], [] => true
  | .lit s :: ps, x :: xs => s = x && matchSegs ps xs
  | .capture _ :: ps, _ :: xs => matchSegs ps xs
  | [.wildcard _], _ => true
  | _, _ => false

/-- A registered binding: (HTTP method, pattern, handler).  Handlers are
modelled by their effect on the response state. -/
structure Route where
  method : String
  pattern : List Seg
  handler : Resp → Resp

/-- Embeds the Router data relevant to dispatch: the registered bindings
and the 404/405 callbacks (src/routing.go `Router`). -/
structure Router where
  routes : List Route
  on404 : Resp → Resp
  on405 : Resp → Resp

/-- Embeds `New()` (src/routing.go): a router with the default 404/405
handlers installed. -/
def New (routes : List Route) : Router :=
  ⟨routes, defaultOn404, defaultOn405⟩

/-- Modelled from the spec: `mux.Handler(req)` resolution — find the
registered binding whose method and pattern match the request.  Under the
uniqueness hypotheses used by the theorems the registration-order
`find?` agrees with ServeMux precedence. -/
def resolve (routes : List Route) (method path : String) : Option Route :=
  routes.find? (fun r => r.method = method && matchSegs r.pattern (splitPath path))

/-- Modelled from the spec: `ServeMux.matchingMethods` — the methods of all
patterns matching the path, deduplicated and sorted (Go collects them in a
set and sorts). -/
def allowedMethods (routes : List Route) (path : String) : List String :=
  sortBy strLe
    (dedupStr ((routes.filter (fun r => matchSegs r.pattern (splitPath path))).map
      (fun r => r.method)))

/-- Embeds `Router.ServeHTTP` (src/routing.go lines 140-163).  On a match
the mux runs the registered handler.  Otherwise the stdlib fallback handler
is run against the `responder` wrapper (src/shared.go): its `Header()` is
the promoted real writer header map, so the headers the stdlib fallback
sets (`Allow` on 405 — sorted methods joined with comma-space — plus the
`http.Error` headers) land on the real response, while the status is only
captured and the body discarded.  The captured status then selects the
configured 404 or 405 callback, which writes the real response. -/
def Router.ServeHTTP (r : Router) (method path : String) (w : Resp) : Resp :=
  match resolve r.routes method path with
  | some route => route.handler w
  | none =>
    let allowed := allowedMethods r.routes path
    if allowed ≠ [] then
      -- stdlib method-not-allowed fallback, run on the responder:
      -- w.Header().Set("Allow", strings.Join(allowedMethods, ", "));
      -- http.Error(w, ..., 405) sets Content-Type and nosniff headers,
      -- then writes status/body into the responder (captured/discarded).
      let w := w.SetHeader "Allow" (String.intercalate ", " allowed)
      let w := w.SetHeader "Content-Type" "text/plain; charset=utf-8"
      let w := w.SetHeader "X-Content-Type-Options" "nosniff"
      r.on405 w
    else
      -- stdlib NotFoundHandler run on the responder: http.Error(w, ..., 404).
      let w := w.SetHeader "Content-Type" "text/plain; charset=utf-8"
      let w := w.SetHeader "X-Content-Type-Options" "nosniff"
      r.on404 w

/-- Embeds `Router.handle` (src/routing.go line 103) registration,
including the behaviour of `http.ServeMux.Handle`, which fails (panics)
when the exact pattern is already registered and leaves the registry
unchanged.  Modelled from the spec: `Register ... fails with
DuplicateRoute if the exact (method, pattern) pair is already registered`. -/
def Router.handle (r : Router) (method : String) (pattern : List Seg)
    (h : Resp → Resp) : Except String Router :=
  if r.routes.any (fun q => q.method = method && q.pattern = pattern) then
    .error "mux: duplicate route registration"
  else
    .ok { r with routes := r.routes ++ [⟨method, pattern, h⟩] }

/-! ## Middleware composition

Embeds the wrapping loop of `Router.handle` (src/routing.go lines 100-102):
`for i := len(mws) - 1; i >= 0; i-- \x7b h = mws[i](h) \x7d`, i.e. the head of
the list ends up outermost. -/

/-- Embeds the middleware-application loop of `Router.handle`: the handler
is wrapped right-to-left, so `applyMiddleware [m1, m2] h = m1 (m2 h)`. -/
def applyMiddleware {H : Type} (mws : List (H → H)) (h : H) : H :=
  mws.foldr (fun m acc => m acc) h

/-- Handlers over an observable call trace, used to state the middleware
ordering guarantee: a handler appends the events it performs. -/
def TraceHandler : Type := List String → List String

/-- A before/after tracing middleware with the shape used by the
repository's middleware tests: record `name-before`, call `next`, record
`name-after`. -/
def traceMW (name : String) (next : TraceHandler) : TraceHandler :=
  fun t => next (t ++ [name ++ "-before"]) ++ [name ++ "-after"]

/-- A tracing terminal handler: records the single event `handler`. -/
def traceTerminal : TraceHandler :=
  fun t => t ++ ["handler"]

/-! ## Request context, locals and the context pool

Embeds `Context` locals (src/context.go) and the pooled request lifecycle
of `Router.handler` (src/routing.go lines 117-138).  Local values are Go
`any`; we model them as `Option String` where `none` is the Go `nil`
interface value (the only distinction `Set`/`Get` make). -/

structure Context where
  locals : List (String × Option String)
  attached : Bool
deriving Repr, DecidableEq

/-- Overwrites the value of the first entry with the given key, leaving
other entries alone (the in-place overwrite loop of `Context.Set`). -/
def overwriteLocal (key : String) (value : Option String) :
    List (String × Option String) → List (String × Option String)
  | [] => []
  | kv :: rest =>
    if kv.1 = key then (key, value) :: rest else kv :: overwriteLocal key value rest

/-- Embeds `Context.Set` (src/context.go): overwrite in place when the key
exists (even with a nil value); otherwise ignore nil values and append.
(The capacity-reuse branch of the source changes only memory layout, not
the resulting list.) -/
def Context.Set (c : Context) (key : String) (value : Option String) : Context :=
  if (c.locals.find? (fun kv => kv.1 = key)).isSome then
    { c with locals := overwriteLocal key value c.locals }
  else if value = none then
    c
  else
    { c with locals := c.locals ++ [(key, value)] }

/-- Embeds `Context.Get` (src/context.go): the value of the first entry
with the key, or the nil interface value (`none`) when absent. -/
def Context.Get (c : Context) (key : String) : Option String :=
  match c.locals.find? (fun kv => kv.1 = key) with
  | some kv => kv.2
  | none => none

/-- Embeds `Context.attach` (called by `Router.handler`, src/routing.go
line 121): binds the writer/request pair to the context.  We track only
the attachment flag; locals are untouched. -/
def Context.attach (c : Context) : Context :=
  { c with attached := true }

/-- Modelled from the spec: `Context.detach` is called by `Router.handler`
(src/routing.go line 129) and asserted on by `TestContextDetach`
(src/context_test.go lines 757-777), but its definition is not among the
sources.  Per spec §4.3, release wipes the locals list to length zero and
detaches the request/response references. -/
def Context.detach (_c : Context) : Context :=
  ⟨[], false⟩

/-- Embeds the `pool[Context]` free list (src/shared.go): `get` pops a
pooled context or allocates a zero-valued one; `put` returns a context to
the pool.  (`sync.Pool` may drop or duplicate members; the free-list model
covers the reuse path the claims are about.) -/
structure PoolState where
  free : List Context
deriving Repr, DecidableEq

/-- Embeds `pool.get` (src/shared.go): pop a pooled context if one exists,
else `new(Context)` (zero value: empty locals, not attached). -/
def poolGet (p : PoolState) : Context × PoolState :=
  match p.free with
  | c :: rest => (c, ⟨rest⟩)
  | [] => (⟨[], false⟩, ⟨[]⟩)

/-- Embeds `pool.put` (src/shared.go). -/
def poolPut (p : PoolState) (c : Context) : PoolState :=
  ⟨c :: p.free⟩

/-- Outcome of running a Go handler body: a returned `error` value
(possibly nil), or a panic carrying a payload description. -/
inductive HExec where
  | ret (err : Option String)
  | panics (payload : String)
deriving Repr, DecidableEq

/-- Outcome of running the configured error handler: normal return or a
panic with a payload description. -/
inductive EExec where
  | ok
  | panics (payload : String)
deriving Repr, DecidableEq

/-- Embeds `Router.safelyHandleError` (src/routing.go lines 106-114): run
the error handler under its own deferred `recover`; a panic is consumed
and logged.  Returns the log entries produced. -/
def safelyHandleError (onErr : String → EExec) (e : String) : List String :=
  match onErr e with
  | .ok => []
  | .panics p => ["mux: panic in error handler: " ++ p]

/-- Observable outcome of one full pass through `Router.handler`. -/
structure ReqResult where
  pool : PoolState
  localsAtAcquire : List (String × Option String)
  errCalls : List String
  loggedPanics : List String
  escaped : Bool
deriving Repr, DecidableEq

/-- Embeds `Router.handler` (src/routing.go lines 117-138) for one request:
acquire a context from the pool, attach it, run the handler body (modelled
as a state transform on the context plus an outcome), route any returned
error or recovered panic through `safelyHandleError`, then — in the same
deferred function, on every exit path — detach the context and return it
to the pool.  The deferred `recover` consumes a handler panic, so no panic
escapes (`escaped` is the propagation status past the deferred function). -/
def runRequest (p : PoolState) (h : Context → Context × HExec)
    (onErr : String → EExec) : ReqResult :=
  let acq := poolGet p
  let c0 := Context.attach acq.1
  let step := h c0
  match step.2 with
  | .ret none =>
    -- no error returned; deferred func finds recover() == nil,
    -- then releases the context
    ⟨poolPut acq.2 step.1.detach, c0.locals, [], [], false⟩
  | .ret (some e) =>
    -- handler returned a non-nil error: safelyHandleError, then the
    -- deferred release
    ⟨poolPut acq.2 step.1.detach, c0.locals, [e], safelyHandleError onErr e, false⟩
  | .panics payload =>
    -- recover() != nil in the deferred func: wrap as
    -- fmt.Errorf("panic: %v", err) and route to safelyHandleError,
    -- then release; the panic is consumed by recover
    ⟨poolPut acq.2 step.1.detach, c0.locals, ["panic: " ++ payload],
      safelyHandleError onErr ("panic: " ++ payload), false⟩

/-! ## JSON body decoder

Embeds `decodeJSON` (src/unnamed/part_000).  The Go `encoding/json`
decoder and `http.MaxBytesReader` are external collaborators; the error
values they can hand to the classifier are modelled as `GoErr`, with
`goErrMsg` as the `err.Error()` text the classifier inspects. -/

/-- The byte limit installed by `decodeJSON`:
`maxBytes := 1_048_576` (src/unnamed/part_000 line 16). -/
def maxBytesLimit : Nat := 1048576

/-- Error values `decoder.Decode` can return, at the granularity the
classifier in `decodeJSON` distinguishes them: `io.EOF`,
`io.ErrUnexpectedEOF`, `*http.MaxBytesError` (with its limit),
`*json.SyntaxError` (with its offset), `*json.UnmarshalTypeError` (with
`Field` and `Offset`), `*json.InvalidUnmarshalError`, and any other error
(e.g. the unknown-field error, which `encoding/json` produces as a plain
error with text `json: unknown field "<name>"`). -/
inductive GoErr where
  | eof
  | unexpectedEOF
  | maxBytes (limit : Nat)
  | syntaxErr (offset : Nat)
  | unmarshalType (field : String) (offset : Nat)
  | invalidUnmarshal (msg : String)
  | generic (msg : String)
deriving Repr, DecidableEq

/-- The `err.Error()` text of each modelled error, as produced by the Go
standard library (representative where the classifier only checks the
prefix). -/
def goErrMsg : GoErr → String
  | .eof => "EOF"
  | .unexpectedEOF => "unexpected EOF"
  | .maxBytes _ => "http: request body too large"
  | .syntaxErr _ => "invalid character in JSON input"
  | .unmarshalType field _ => "json: cannot unmarshal value into field " ++ field
  | .invalidUnmarshal m => m
  | .generic m => m

/-- Embeds `errors.As(err, &invalidUnmarshalError)`. -/
def errorsAsInvalidUnmarshal : GoErr → Bool
  | .invalidUnmarshal _ => true
  | _ => false

/-- Embeds `errors.Is(err, io.EOF)`. -/
def errorsIsEOF : GoErr → Bool
  | .eof => true
  | _ => false

/-- Embeds `errors.Is(err, io.ErrUnexpectedEOF)`. -/
def errorsIsUnexpectedEOF : GoErr → Bool
  | .unexpectedEOF => true
  | _ => false

/-- Embeds `errors.As(err, &maxBytesError)`, extracting the limit. -/
def errorsAsMaxBytes : GoErr → Option Nat
  | .maxBytes limit => some limit
  | _ => none

/-- Embeds `errors.As(err, &syntaxError)`. -/
def errorsAsSyntaxErr : GoErr → Bool
  | .syntaxErr _ => true
  | _ => false

/-- Embeds `errors.As(err, &unmarshalTypeError)`, extracting `Field` and
`Offset`. -/
def errorsAsUnmarshalType : GoErr → Option (String × Nat)
  | .unmarshalType field offset => some (field, offset)
  | _ => none

/-- Result of `decodeJSON`: success, a classified decode error with its
fixed message, the raw unclassified error of the final fallthrough
(`return err`), or a panic (the invalid-target case). -/
inductive DecodeResult where
  | ok
  | fail (msg : String)
  | raw (msg : String)
  | panics (msg : String)
deriving Repr, DecidableEq

/-- Embeds Go `strings.HasPrefix` on the character sequence of the
strings. -/
def hasPrefixStr (pre s : String) : Bool :=
  List.isPrefixOf pre.data s.data

/-- Embeds Go `strings.TrimPrefix`: drop the prefix when present,
otherwise return the string unchanged. -/
def trimPrefixStr (pre s : String) : String :=
  if hasPrefixStr pre s then ⟨s.data.drop pre.data.length⟩ else s

/-- Embeds the error-classification chain of `decodeJSON`
(src/unnamed/part_000 lines 34-79), in source order: programmer error
(panic), empty body, unexpected EOF, body too large, unknown field (a
textual prefix check on `err.Error()`), syntax error, type mismatch, and
finally the raw error. -/
def classifyDecodeErr (e : GoErr) : DecodeResult :=
  if errorsAsInvalidUnmarshal e then
    .panics (goErrMsg e)
  else if errorsIsEOF e then
    .fail "body must be valid JSON"
  else if errorsIsUnexpectedEOF e then
    .fail "body contains badly-formed JSON"
  else
    match errorsAsMaxBytes e with
    | some limit => .fail ("body must not exceed " ++ toString limit ++ " bytes")
    | none =>
      if hasPrefixStr "json: unknown field " (goErrMsg e) then
        .fail ("body contains unknown field " ++
          trimPrefixStr "json: unknown field " (goErrMsg e))
      else if errorsAsSyntaxErr e then
        .fail "body contains badly-formed JSON"
      else
        match errorsAsUnmarshalType e with
        | some fo =>
          if fo.1 ≠ "" then
            .fail ("body contains incorrect type for field \"" ++ fo.1 ++ "\"")
          else
            .fail ("body contains incorrect type at position " ++ toString fo.2)
        | none => .raw (goErrMsg e)

/-- Embeds `decodeJSON` (src/unnamed/part_000 lines 14-80) at the decoder
boundary: `first` is the outcome of the first `decoder.Decode(v)` call
(`none` on success) and `second` the outcome of the guard
`decoder.Decode(&struct\x7b\x7d\x7b\x7d)` that enforces a single JSON value —
the source accepts only `err == io.EOF` there.  On a failed first decode
the classifier chain runs. -/
def decodeJSON (first : Option GoErr) (second : Option GoErr) : DecodeResult :=
  match first with
  | none =>
    match second with
    | some .eof => .ok
    | _ => .fail "body must only contain a single JSON value"
  | some e => classifyDecodeErr e

/-! ## Content-type dispatch of `Context.Bind` -/

/-- MIME constants (src/unnamed/part_003). -/
def MIMETextXML : String := "text/xml"

/-- MIME constant `MIMEApplicationXML` (src/unnamed/part_003). -/
def MIMEApplicationXML : String := "application/xml"

/-- MIME constant `MIMEApplicationJSON` (src/unnamed/part_003). -/
def MIMEApplicationJSON : String := "application/json"

/-- MIME constant `MIMEApplicationForm` (src/unnamed/part_003). -/
def MIMEApplicationForm : String := "application/x-www-form-urlencoded"

/-- MIME constant `MIMEMultipartForm` (src/unnamed/part_003). -/
def MIMEMultipartForm : String := "multipart/form-data"

/-- Embeds `Context.Bind` (src/context.go lines 171-182), keyed on the
parsed media type `c.ContentType()`:  XML and form types return nil
without touching the body or the target (the decoders are TODO stubs);
every other parsed content type falls through to `decodeJSON`.  The
result pairs the returned error with whether the JSON decoder ran (and
hence whether the body was read / the target could be modified). -/
def Bind (contentType : String) (jsonResult : DecodeResult) : DecodeResult × Bool :=
  if contentType = MIMEApplicationXML ∨ contentType = MIMETextXML then
    (.ok, false)
  else if contentType = MIMEApplicationForm ∨ contentType = MIMEMultipartForm then
    (.ok, false)
  else
    (jsonResult, true)

/-! ## Helper lemmas -/

/-- Setting a header does not change the body. -/
theorem SetHeader_body (w : Resp) (k v : String) : (w.SetHeader k v).body = w.body := rfl

/-- Setting a header does not change the status. -/
theorem SetHeader_status (w : Resp) (k v : String) : (w.SetHeader k v).status = w.status := rfl

/-- Looking up the key just set yields the new value. -/
theorem find?_upsertHeader_self (k v : String) :
    ∀ l : List (String × String),
      (upsertHeader k v l).find? (fun kv => kv.1 = k) = some (k, v)
  | [] => by simp [upsertHeader]
  | kv :: rest => by
    by_cases h : kv.1 = k
    · simp [upsertHeader, h]
    · simp only [upsertHeader, if_neg h, List.find?]
      simp only [decide_eq_true_eq, h, decide_False]
      exact find?_upsertHeader_self k v rest

/-- Setting one key leaves lookups of a different key unchanged. -/
theorem find?_upsertHeader_ne (k k2 v : String) (h : k ≠ k2) :
    ∀ l : List (String × String),
      (upsertHeader k v l).find? (fun kv => kv.1 = k2) = l.find? (fun kv => kv.1 = k2)
  | [] => by simp [upsertHeader, h]
  | kv :: rest => by
    by_cases hk : kv.1 = k
    · simp only [upsertHeader, if_pos hk, List.find?]
      simp [h, hk]
    · simp only [upsertHeader, if_neg hk, List.find?]
      by_cases hk2 : kv.1 = k2
      · simp [hk2]
      · simp only [hk2, decide_False]
        exact find?_upsertHeader_ne k k2 v h rest

/-- `GetHeader` of the key just set. -/
theorem GetHeader_SetHeader_self (w : Resp) (k v : String) :
    (w.SetHeader k v).GetHeader k = some v := by
  simp [Resp.SetHeader, Resp.GetHeader, find?_upsertHeader_self]

/-- `GetHeader` of an unrelated key after `SetHeader`. -/
theorem GetHeader_SetHeader_ne (w : Resp) (k k2 v : String) (h : k ≠ k2) :
    (w.SetHeader k v).GetHeader k2 = w.GetHeader k2 := by
  simp [Resp.SetHeader, Resp.GetHeader, find?_upsertHeader_ne k k2 v h]

/-- `Blob` leaves the headers set before it intact, except Content-Type. -/
theorem GetHeader_Blob_ne (w : Resp) (status : Nat) (ct data k : String)
    (h : k ≠ "Content-Type") : (Blob w status ct data).GetHeader k = w.GetHeader k := by
  have h2 := GetHeader_SetHeader_ne w "Content-Type" k ct (fun hh => h hh.symm)
  by_cases hct : ct = ""
  · simp [Blob, hct, Resp.GetHeader]
  · simp only [Blob, if_pos (show ct ≠ "" from hct)]
    simpa [Resp.GetHeader] using h2

/-- The pool hands out after `runRequest` exactly the released context on
top of the remaining free list. -/
theorem runRequest_pool (p : PoolState) (h : Context → Context × HExec)
    (onErr : String → EExec) :
    (runRequest p h onErr).pool =
      poolPut (poolGet p).2 ((h (Context.attach (poolGet p).1)).1.detach) := by
  simp only [runRequest]
  rcases hstep : h (Context.attach (poolGet p).1) with ⟨c1, out⟩
  rcases out with err | payload
  · rcases err <;> rfl
  · rfl

/-- The locals list observed at acquisition is the pooled context's. -/
theorem runRequest_localsAtAcquire (p : PoolState) (h : Context → Context × HExec)
    (onErr : String → EExec) :
    (runRequest p h onErr).localsAtAcquire = (poolGet p).1.locals := by
  simp only [runRequest]
  rcases hstep : h (Context.attach (poolGet p).1) with ⟨c1, out⟩
  rcases out with err | payload
  · rcases err <;> rfl
  · rfl

/-- No panic propagates out of `Router.handler`. -/
theorem runRequest_escaped (p : PoolState) (h : Context → Context × HExec)
    (onErr : String → EExec) : (runRequest p h onErr).escaped = false := by
  simp only [runRequest]
  rcases hstep : h (Context.attach (poolGet p).1) with ⟨c1, out⟩
  rcases out with err | payload
  · rcases err <;> rfl
  · rfl

/-- The error handler calls performed when the handler body panics. -/
theorem runRequest_panics (p : PoolState) (h : Context → Context × HExec)
    (onErr : String → EExec) (c1 : Context) (payload : String)
    (hstep : h (Context.attach (poolGet p).1) = (c1, .panics payload)) :
    (runRequest p h onErr).errCalls = ["panic: " ++ payload] ∧
    (runRequest p h onErr).loggedPanics = safelyHandleError onErr ("panic: " ++ payload) := by
  simp [runRequest, hstep]

/-- The error handler calls performed when the handler body returns an
error value. -/
theorem runRequest_ret (p : PoolState) (h : Context → Context × HExec)
    (onErr : String → EExec) (c1 : Context) (e : Option String)
    (hstep : h (Context.attach (poolGet p).1) = (c1, .ret e)) :
    (runRequest p h onErr).errCalls = e.elim [] (fun x => [x]) := by
  rcases e with _ | e <;> simp [runRequest, hstep]

/-- The route predicate used by `resolve`, spelled out. -/
theorem resolve_eq_of_unique (routes : List Route) (m path : String) (rt : Route)
    (hmem : rt ∈ routes) (hmethod : rt.method = m)
    (hmatch : matchSegs rt.pattern (splitPath path) = true)
    (huniq : ∀ r ∈ routes, r.method = m → matchSegs r.pattern (splitPath path) = true →
      r = rt) :
    resolve routes m path = some rt := by
  have hsome :
      (routes.find? (fun r => r.method = m && matchSegs r.pattern (splitPath path))).isSome := by
    rw [List.find?_isSome]
    exact ⟨rt, hmem, by simp [hmethod, hmatch]⟩
  obtain ⟨r0, hr0⟩ := Option.isSome_iff_exists.mp hsome
  have hp := List.find?_some hr0
  have hm := List.mem_of_find?_eq_some hr0
  simp only [Bool.and_eq_true, decide_eq_true_eq] at hp
  rw [resolve, hr0, huniq r0 hm hp.1 hp.2]

/-- `resolve` finds nothing when no method-matching route matches the
path. -/
theorem resolve_eq_none (routes : List Route) (m path : String)
    (h : ∀ r ∈ routes, r.method = m → matchSegs r.pattern (splitPath path) = false) :
    resolve routes m path = none := by
  refine List.find?_eq_none.mpr fun r hr => ?_
  simp only [Bool.and_eq_true, decide_eq_true_eq, not_and]
  intro hm
  simp [h r hr hm]

/-- No pattern matching the path at all means no allowed methods. -/
theorem allowedMethods_nil (routes : List Route) (path : String)
    (h : ∀ r ∈ routes, matchSegs r.pattern (splitPath path) = false) :
    allowedMethods routes path = [] := by
  have hfil : routes.filter (fun r => matchSegs r.pattern (splitPath path)) = [] :=
    List.filter_eq_nil_iff.mpr (fun r hr => by simp [h r hr])
  simp [allowedMethods, hfil, dedupStr, sortBy]

/-- Inserting never produces the empty list. -/
theorem insertSorted_ne_nil {α : Type} (le : α → α → Bool) (a : α) (l : List α) :
    insertSorted le a l ≠ [] := by
  cases l with
  | nil => simp [insertSorted]
  | cons b l =>
    simp only [insertSorted]
    cases le a b <;> simp

/-- Deduplicating a nonempty list yields a nonempty list. -/
theorem dedupStr_ne_nil (a : String) (l : List String) : dedupStr (a :: l) ≠ [] := by
  simp only [dedupStr]
  cases hc : (dedupStr l).contains a with
  | false => simp
  | true =>
    simp only [cond_true]
    intro hnil
    rw [hnil] at hc
    simp [List.contains] at hc

/-- A matching route contributes its method: the allowed-methods list of a
matched path is nonempty. -/
theorem allowedMethods_ne_nil (routes : List Route) (path : String) (r : Route)
    (hr : r ∈ routes) (hm : matchSegs r.pattern (splitPath path) = true) :
    allowedMethods routes path ≠ [] := by
  have hfil : r ∈ routes.filter (fun q => matchSegs q.pattern (splitPath path)) :=
    List.mem_filter.mpr ⟨hr, by simp [hm]⟩
  have hmap : r.method ∈
      (routes.filter (fun q => matchSegs q.pattern (splitPath path))).map
        (fun q => q.method) :=
    List.mem_map_of_mem _ hfil
  rcases hl : (routes.filter (fun q => matchSegs q.pattern (splitPath path))).map
      (fun q => q.method) with _ | ⟨x, xs⟩
  · rw [hl] at hmap
    simp at hmap
  · simp only [allowedMethods, hl]
    rcases hd : dedupStr (x :: xs) with _ | ⟨y, ys⟩
    · exact absurd hd (dedupStr_ne_nil x xs)
    · simp only [sortBy]
      exact insertSorted_ne_nil _ _ _

/-- The shape of `ServeHTTP` in the method-mismatch case. -/
theorem ServeHTTP_mismatch (routes : List Route) (m path : String) (w : Resp)
    (hres : resolve routes m path = none)
    (hne : allowedMethods routes path ≠ []) :
    (New routes).ServeHTTP m path w =
      defaultOn405
        (((w.SetHeader "Allow" (String.intercalate ", " (allowedMethods routes path))).SetHeader
            "Content-Type" "text/plain; charset=utf-8").SetHeader
          "X-Content-Type-Options" "nosniff") := by
  simp only [Router.ServeHTTP, New, hres]
  rw [if_pos hne]

/-- The shape of `ServeHTTP` in the no-match case. -/
theorem ServeHTTP_nomatch (routes : List Route) (m path : String) (w : Resp)
    (hres : resolve routes m path = none)
    (hnil : allowedMethods routes path = []) :
    (New routes).ServeHTTP m path w =
      defaultOn404
        ((w.SetHeader "Content-Type" "text/plain; charset=utf-8").SetHeader
          "X-Content-Type-Options" "nosniff") := by
  simp only [Router.ServeHTTP, New, hres, hnil]
  rw [if_neg (by simp)]

/-! ## Claim theorems -/

/-- C3: composing a handler with an empty middleware list returns the
original handler unchanged; composing with `[m1, m2]` is `m1 (m2 handler)`;
and on tracing middleware the observed call order is m1-before, m2-before,
handler, m2-after, m1-after. -/
theorem C3_middleware_composition :
    (∀ (H : Type) (h : H), applyMiddleware [] h = h) ∧
    (∀ (H : Type) (m1 m2 : H → H) (h : H), applyMiddleware [m1, m2] h = m1 (m2 h)) ∧
    applyMiddleware [traceMW "m1", traceMW "m2"] traceTerminal [] =
      ["m1-before", "m2-before", "handler", "m2-after", "m1-after"] :=
  ⟨fun _ _ => rfl, fun _ _ _ _ => rfl, rfl⟩

/-- C5: the JSON body decoder classifies every failed decode into exactly
one cause with its fixed message — empty body, badly-formed JSON (syntax
error or truncation), the 1,048,576-byte limit with the limit value,
unknown field, incorrect type (by field name when known, else byte
offset), and any non-EOF remainder after the first value. -/
theorem C5_decode_error_taxonomy :
    decodeJSON (some .eof) none = .fail "body must be valid JSON" ∧
    decodeJSON (some (.syntaxErr 2)) none = .fail "body contains badly-formed JSON" ∧
    decodeJSON (some .unexpectedEOF) none = .fail "body contains badly-formed JSON" ∧
    maxBytesLimit = 1048576 ∧
    decodeJSON (some (.maxBytes maxBytesLimit)) none =
      .fail "body must not exceed 1048576 bytes" ∧
    decodeJSON (some (.generic "json: unknown field \"extra\"")) none =
      .fail "body contains unknown field \"extra\"" ∧
    decodeJSON (some (.unmarshalType "age" 10)) none =
      .fail "body contains incorrect type for field \"age\"" ∧
    decodeJSON (some (.unmarshalType "" 2)) none =
      .fail "body contains incorrect type at position 2" ∧
    (∀ second : Option GoErr, second ≠ some .eof →
      decodeJSON none second = .fail "body must only contain a single JSON value") := by
  refine ⟨rfl, rfl, rfl, rfl, rfl, rfl, rfl, rfl, ?_⟩
  intro second hne
  match second with
  | none => rfl
  | some .eof => exact absurd rfl hne
  | some .unexpectedEOF => rfl
  | some (.maxBytes l) => rfl
  | some (.syntaxErr o) => rfl
  | some (.unmarshalType f o) => rfl
  | some (.invalidUnmarshal m) => rfl
  | some (.generic m) => rfl

/-- C5 witness: the multiple-values guard at a concrete non-EOF second
decode outcome. -/
theorem C5_decode_error_taxonomy_witness :
    decodeJSON none (some (GoErr.generic "json: unknown field \"b\"")) =
      .fail "body must only contain a single JSON value" :=
  C5_decode_error_taxonomy.2.2.2.2.2.2.2.2
    (some (GoErr.generic "json: unknown field \"b\"")) (by decide)

/-- C7 counterexample: the default error handler renders the error text
under the field name `message`, not `details` — at the concrete message
`boom` the body differs from the claimed JSON shape (in either spacing). -/
theorem C7_default_error_body_counterexample :
    (defaultOnErr "boom" emptyResp).body =
      "\x7b\"error\":\"internal server error\",\"message\":\"boom\"\x7d" ∧
    (defaultOnErr "boom" emptyResp).body ≠
      "\x7b\"error\":\"internal server error\",\"details\":\"boom\"\x7d" ∧
    (defaultOnErr "boom" emptyResp).body ≠
      "\x7b\"error\": \"internal server error\", \"details\": \"boom\"\x7d" :=
  ⟨by decide, by decide, by decide⟩

/-- C7 (amended): when a route handler returns a non-nil error and no
custom error handler is configured, the default error handler writes HTTP
500 with exactly the JSON body
`\x7b"error":"internal server error","message":"<text>"\x7d`, where `<text>`
is the error message — the second field is named `message`, not
`details`. -/
theorem C7_default_error_body :
    ∀ (msg : String) (w : Resp),
      (defaultOnErr msg w).status = 500 ∧
      (defaultOnErr msg w).body =
        w.body ++ ("\x7b\"error\":\"internal server error\",\"message\":\"" ++ msg ++ "\"" ++ "\x7d") ∧
      (defaultOnErr msg w).GetHeader "Content-Type" = some "application/json" := by
  intro msg w
  have hle : strLe "error" "message" = true := rfl
  have hg : goMarshalM [("error", "internal server error"), ("message", msg)] =
      "\x7b\"error\":\"internal server error\",\"message\":\"" ++ msg ++ "\"" ++ "\x7d" := by
    simp only [goMarshalM, sortBy, insertSorted, hle, cond_true, List.map,
      String.intercalate, String.intercalate.go]
    simp only [← String.append_assoc]
    rfl
  refine ⟨rfl, ?_, ?_⟩
  · show w.body ++ goMarshalM [("error", "internal server error"), ("message", msg)] = _
    rw [hg]
  · show (Blob _ _ _ _).GetHeader _ = _
    simp only [Blob, if_pos (show "application/json" ≠ "" by decide)]
    simpa [Resp.GetHeader] using
      GetHeader_SetHeader_self w "Content-Type" "application/json"

/-- C1: a request that matches a unique registered (method, pattern)
binding is dispatched to that binding's handler and no other; a request
whose path matches no registered pattern under any method gets the
not-found handler, which by default writes HTTP 404 with body
`\x7b"error":"not found"\x7d`; a request whose path matches registered patterns
but only under other methods gets the method-not-allowed handler, which by
default writes HTTP 405 with body `\x7b"error":"method not allowed"\x7d` —
never 404. -/
theorem C1_dispatch_resolution :
    (∀ (routes : List Route) (m : String) (pat : List Seg) (h : Resp → Resp)
        (path : String) (w : Resp),
      (⟨m, pat, h⟩ : Route) ∈ routes →
      matchSegs pat (splitPath path) = true →
      (∀ r ∈ routes, r.method = m → matchSegs r.pattern (splitPath path) = true →
        r = ⟨m, pat, h⟩) →
      (New routes).ServeHTTP m path w = h w) ∧
    (∀ (routes : List Route) (m path : String) (w : Resp),
      (∀ r ∈ routes, matchSegs r.pattern (splitPath path) = false) →
      ((New routes).ServeHTTP m path w).status = 404 ∧
      ((New routes).ServeHTTP m path w).body = w.body ++ "\x7b\"error\":\"not found\"\x7d") ∧
    (∀ (routes : List Route) (m path : String) (w : Resp) (r : Route),
      r ∈ routes → matchSegs r.pattern (splitPath path) = true →
      (∀ q ∈ routes, matchSegs q.pattern (splitPath path) = true → q.method ≠ m) →
      ((New routes).ServeHTTP m path w).status = 405 ∧
      ((New routes).ServeHTTP m path w).body =
        w.body ++ "\x7b\"error\":\"method not allowed\"\x7d" ∧
      ((New routes).ServeHTTP m path w).status ≠ 404) := by
  refine ⟨?_, ?_, ?_⟩
  · intro routes m pat h path w hmem hmatch huniq
    have hres := resolve_eq_of_unique routes m path ⟨m, pat, h⟩ hmem rfl hmatch huniq
    simp [Router.ServeHTTP, New, hres]
  · intro routes m path w hno
    have hres : resolve routes m path = none :=
      resolve_eq_none routes m path (fun r hr _ => hno r hr)
    have hnil : allowedMethods routes path = [] := allowedMethods_nil routes path hno
    rw [ServeHTTP_nomatch routes m path w hres hnil]
    exact ⟨rfl, rfl⟩
  · intro routes m path w r hr hm hmm
    have hres : resolve routes m path = none := by
      refine resolve_eq_none routes m path (fun q hq hqm => ?_)
      cases hmq : matchSegs q.pattern (splitPath path) with
      | false => rfl
      | true => exact absurd hqm (hmm q hq hmq)
    have hne : allowedMethods routes path ≠ [] :=
      allowedMethods_ne_nil routes path r hr hm
    rw [ServeHTTP_mismatch routes m path w hres hne]
    refine ⟨rfl, rfl, ?_⟩
    intro h404
    simp [defaultOn405, JSONResp, Blob] at h404

/-- C1 witness: one registered GET binding — a GET to its path runs its
handler, a GET elsewhere yields 404, and a POST to its path yields 405. -/
theorem C1_dispatch_resolution_witness :
    Router.ServeHTTP
        (New [⟨"GET", [Seg.lit "", Seg.lit "a"], fun w => Blob w 200 "" "ok"⟩])
        "GET" "/a" emptyResp = Blob emptyResp 200 "" "ok" ∧
    (Router.ServeHTTP
        (New [⟨"GET", [Seg.lit "", Seg.lit "a"], fun w => Blob w 200 "" "ok"⟩])
        "GET" "/nope" emptyResp).status = 404 ∧
    (Router.ServeHTTP
        (New [⟨"GET", [Seg.lit "", Seg.lit "a"], fun w => Blob w 200 "" "ok"⟩])
        "POST" "/a" emptyResp).status = 405 :=
  ⟨C1_dispatch_resolution.1 [⟨"GET", [Seg.lit "", Seg.lit "a"], fun w => Blob w 200 "" "ok"⟩]
      "GET" [Seg.lit "", Seg.lit "a"] (fun w => Blob w 200 "" "ok") "/a" emptyResp
      (List.mem_singleton.mpr rfl) rfl
      (fun r hr _ _ => List.mem_singleton.mp hr),
    (C1_dispatch_resolution.2.1
      [⟨"GET", [Seg.lit "", Seg.lit "a"], fun w => Blob w 200 "" "ok"⟩] "GET" "/nope" emptyResp
      (fun r hr => by
        obtain rfl := List.mem_singleton.mp hr
        rfl)).1,
    (C1_dispatch_resolution.2.2
      [⟨"GET", [Seg.lit "", Seg.lit "a"], fun w => Blob w 200 "" "ok"⟩] "POST" "/a" emptyResp
      ⟨"GET", [Seg.lit "", Seg.lit "a"], fun w => Blob w 200 "" "ok"⟩
      (List.mem_singleton.mpr rfl) rfl
      (fun q hq _ => by
        obtain rfl := List.mem_singleton.mp hq
        decide)).1⟩

/-- C2: when the path matches registered patterns but the method has no
binding, the dispatcher ends up with the `Allow` response header set to
the (sorted, deduplicated) list of methods registered for that path,
joined with comma and space, and the method-not-allowed handler's 405
response. -/
theorem C2_allow_header :
    ∀ (routes : List Route) (m path : String) (w : Resp) (r : Route),
      r ∈ routes → matchSegs r.pattern (splitPath path) = true →
      (∀ q ∈ routes, matchSegs q.pattern (splitPath path) = true → q.method ≠ m) →
      ((New routes).ServeHTTP m path w).GetHeader "Allow" =
        some (String.intercalate ", " (allowedMethods routes path)) ∧
      ((New routes).ServeHTTP m path w).status = 405 := by
  intro routes m path w r hr hm hmm
  have hres : resolve routes m path = none := by
    refine resolve_eq_none routes m path (fun q hq hqm => ?_)
    cases hmq : matchSegs q.pattern (splitPath path) with
    | false => rfl
    | true => exact absurd hqm (hmm q hq hmq)
  have hne : allowedMethods routes path ≠ [] :=
    allowedMethods_ne_nil routes path r hr hm
  rw [ServeHTTP_mismatch routes m path w hres hne]
  refine ⟨?_, rfl⟩
  simp only [defaultOn405, JSONResp]
  rw [GetHeader_Blob_ne _ _ _ _ _ (by decide)]
  rw [GetHeader_SetHeader_ne _ _ _ _ (by decide)]
  rw [GetHeader_SetHeader_ne _ _ _ _ (by decide)]
  exact GetHeader_SetHeader_self _ _ _

/-- C2 witness: a POST to a GET-only path carries `Allow: GET` on the 405
response. -/
theorem C2_allow_header_witness :
    (Router.ServeHTTP
        (New [⟨"GET", [Seg.lit "", Seg.lit "a"], fun w => Blob w 200 "" "ok"⟩])
        "POST" "/a" emptyResp).GetHeader "Allow" = some "GET" ∧
    (Router.ServeHTTP
        (New [⟨"GET", [Seg.lit "", Seg.lit "a"], fun w => Blob w 200 "" "ok"⟩])
        "POST" "/a" emptyResp).status = 405 :=
  ⟨(C2_allow_header [⟨"GET", [Seg.lit "", Seg.lit "a"], fun w => Blob w 200 "" "ok"⟩]
      "POST" "/a" emptyResp
      ⟨"GET", [Seg.lit "", Seg.lit "a"], fun w => Blob w 200 "" "ok"⟩
      (List.mem_singleton.mpr rfl) rfl
      (fun q hq _ => by
        obtain rfl := List.mem_singleton.mp hq
        decide)).1.trans rfl,
    (C2_allow_header [⟨"GET", [Seg.lit "", Seg.lit "a"], fun w => Blob w 200 "" "ok"⟩]
      "POST" "/a" emptyResp
      ⟨"GET", [Seg.lit "", Seg.lit "a"], fun w => Blob w 200 "" "ok"⟩
      (List.mem_singleton.mpr rfl) rfl
      (fun q hq _ => by
        obtain rfl := List.mem_singleton.mp hq
        decide)).2⟩

/-- C9: registering the same (method, pattern) pair a second time fails
deterministically on the second call, leaves the registry exactly as
after the first registration, and a matching request still resolves to
the first registered handler. -/
theorem C9_duplicate_registration :
    ∀ (r : Router) (m : String) (pat : List Seg) (h1 h2 : Resp → Resp) (r1 : Router)
      (path : String),
      r.handle m pat h1 = .ok r1 →
      (r1.handle m pat h2 = .error "mux: duplicate route registration" ∧
        r1.routes = r.routes ++ [⟨m, pat, h1⟩]) ∧
      (matchSegs pat (splitPath path) = true →
        (∀ q ∈ r.routes, q.method = m → matchSegs q.pattern (splitPath path) = false) →
        resolve r1.routes m path = some ⟨m, pat, h1⟩) := by
  intro r m pat h1 h2 r1 path hok
  rw [Router.handle] at hok
  split at hok
  · exact absurd hok (by simp)
  case isFalse hany =>
    have hroutes : r1.routes = r.routes ++ [⟨m, pat, h1⟩] := by
      cases hok
      rfl
    refine ⟨⟨?_, hroutes⟩, ?_⟩
    · rw [Router.handle, hroutes]
      rw [if_pos (by simp [List.any_append])]

    · intro hm hq
      rw [resolve, hroutes, List.find?_append]
      have h0 : r.routes.find?
          (fun q => q.method = m && matchSegs q.pattern (splitPath path)) = none := by
        refine List.find?_eq_none.mpr fun q hqq => ?_
        simp only [Bool.and_eq_true, decide_eq_true_eq, not_and]
        intro hqm
        simp [hq q hqq hqm]
      rw [h0]
      simp [List.find?, hm]

/-- C9 witness: registering GET `/x` twice — the second call fails and a
GET to `/x` still runs the first handler. -/
theorem C9_duplicate_registration_witness :
    Router.handle
        { routes := [⟨"GET", [Seg.lit "", Seg.lit "x"], fun w => Blob w 200 "" "first"⟩],
          on404 := defaultOn404, on405 := defaultOn405 }
        "GET" [Seg.lit "", Seg.lit "x"] (fun w => w) =
      .error "mux: duplicate route registration" ∧
    resolve [⟨"GET", [Seg.lit "", Seg.lit "x"], fun w => Blob w 200 "" "first"⟩]
        "GET" "/x" =
      some ⟨"GET", [Seg.lit "", Seg.lit "x"], fun w => Blob w 200 "" "first"⟩ :=
  ⟨(C9_duplicate_registration (New []) "GET" [Seg.lit "", Seg.lit "x"]
      (fun w => Blob w 200 "" "first") (fun w => w)
      { routes := [⟨"GET", [Seg.lit "", Seg.lit "x"], fun w => Blob w 200 "" "first"⟩],
        on404 := defaultOn404, on405 := defaultOn405 } "/x" rfl).1.1,
    (C9_duplicate_registration (New []) "GET" [Seg.lit "", Seg.lit "x"]
      (fun w => Blob w 200 "" "first") (fun w => w)
      { routes := [⟨"GET", [Seg.lit "", Seg.lit "x"], fun w => Blob w 200 "" "first"⟩],
        on404 := defaultOn404, on405 := defaultOn405 } "/x" rfl).2 rfl
      (fun q hq => absurd hq (List.not_mem_nil q))⟩

/-- C4: on every exit path from request processing (normal return,
returned error, recovered panic) the context goes back to the pool with
its locals wiped to length zero; hence the locals list is empty at every
acquisition from a well-formed pool, and a value set during one request is
not observable via `Get` in a later request reusing the pooled instance. -/
theorem C4_context_release :
    ∀ (p : PoolState) (h : Context → Context × HExec) (onErr : String → EExec),
      (∀ c ∈ p.free, c.locals = []) →
      (runRequest p h onErr).localsAtAcquire = [] ∧
      (∀ c ∈ (runRequest p h onErr).pool.free, c.locals = []) ∧
      (∀ key, ((Context.attach (poolGet (runRequest p h onErr).pool).1).Get key = none)) := by
  intro p h onErr hp
  have hacq : (poolGet p).1.locals = [] := by
    rcases hfree : p.free with _ | ⟨c, rest⟩
    · simp [poolGet, hfree]
    · simpa [poolGet, hfree] using hp c (by simp [hfree])
  have hrest : ∀ c ∈ (poolGet p).2.free, c.locals = [] := by
    rcases hfree : p.free with _ | ⟨c, rest⟩
    · simp [poolGet, hfree]
    · intro x hx
      refine hp x ?_
      simp only [hfree, List.mem_cons]
      right
      simpa [poolGet, hfree] using hx
  refine ⟨?_, ?_, ?_⟩
  · rw [runRequest_localsAtAcquire]
    exact hacq
  · intro c hc
    rw [runRequest_pool] at hc
    simp only [poolPut, List.mem_cons] at hc
    rcases hc with rfl | hc
    · rfl
    · exact hrest c hc
  · intro key
    rw [runRequest_pool]
    simp [poolPut, poolGet, Context.detach, Context.attach, Context.Get]

/-- C4 witness: a request that stores a local is followed by a request on
the same (reused) context observing nothing: the acquired locals are empty
and `Get` returns nil. -/
theorem C4_context_release_witness :
    (runRequest ⟨[]⟩ (fun c => (c.Set "k" (some "v"), HExec.ret none))
        (fun _ => EExec.ok)).localsAtAcquire = [] ∧
    (Context.attach (poolGet (runRequest ⟨[]⟩
        (fun c => (c.Set "k" (some "v"), HExec.ret none))
        (fun _ => EExec.ok)).pool).1).Get "k" = none :=
  ⟨(C4_context_release ⟨[]⟩ (fun c => (c.Set "k" (some "v"), HExec.ret none))
      (fun _ => EExec.ok) (by simp)).1,
    (C4_context_release ⟨[]⟩ (fun c => (c.Set "k" (some "v"), HExec.ret none))
      (fun _ => EExec.ok) (by simp)).2.2 "k"⟩

/-- C6: a panic anywhere inside the per-request handler invocation never
propagates out of serving: it is converted to an error message describing
the panic payload and passed to the configured error handler, and a panic
in the error handler itself is swallowed and logged. -/
theorem C6_panic_containment :
    (∀ (p : PoolState) (h : Context → Context × HExec) (onErr : String → EExec),
      (runRequest p h onErr).escaped = false) ∧
    (∀ (p : PoolState) (f : Context → Context) (payload : String) (onErr : String → EExec),
      (runRequest p (fun c => (f c, .panics payload)) onErr).errCalls =
        ["panic: " ++ payload]) ∧
    (∀ (p : PoolState) (f : Context → Context) (payload q : String) (onErr : String → EExec),
      onErr ("panic: " ++ payload) = .panics q →
      (runRequest p (fun c => (f c, .panics payload)) onErr).loggedPanics =
        ["mux: panic in error handler: " ++ q] ∧
      (runRequest p (fun c => (f c, .panics payload)) onErr).escaped = false) := by
  refine ⟨runRequest_escaped, ?_, ?_⟩
  · intro p f payload onErr
    exact (runRequest_panics p (fun c => (f c, .panics payload)) onErr
      (f (Context.attach (poolGet p).1)) payload rfl).1
  · intro p f payload q onErr hq
    refine ⟨?_, runRequest_escaped p (fun c => (f c, .panics payload)) onErr⟩
    have h2 := (runRequest_panics p (fun c => (f c, .panics payload)) onErr
      (f (Context.attach (poolGet p).1)) payload rfl).2
    rw [h2]
    simp [safelyHandleError, hq]

/-- C6 witness: a handler panic with payload `boom` followed by an error
handler that itself panics with `second` is logged and does not escape. -/
theorem C6_panic_containment_witness :
    (runRequest ⟨[]⟩ (fun c => (id c, HExec.panics "boom"))
        (fun _ => EExec.panics "second")).loggedPanics =
      ["mux: panic in error handler: second"] ∧
    (runRequest ⟨[]⟩ (fun c => (id c, HExec.panics "boom"))
        (fun _ => EExec.panics "second")).escaped = false :=
  C6_panic_containment.2.2 ⟨[]⟩ id "boom" "second" (fun _ => EExec.panics "second") rfl

/-- C8: a structurally invalid decode target makes the decoder panic
(instead of returning a decode error value); the per-request recovery
boundary catches the panic and routes it to the error handler, which under
the default handler answers HTTP 500. -/
theorem C8_invalid_target_panic :
    decodeJSON (some (.invalidUnmarshal "json: Unmarshal(non-pointer string)")) none =
      .panics "json: Unmarshal(non-pointer string)" ∧
    (∀ (p : PoolState) (f : Context → Context) (onErr : String → EExec),
      (runRequest p (fun c => (f c, .panics "json: Unmarshal(non-pointer string)")) onErr).errCalls =
        ["panic: json: Unmarshal(non-pointer string)"] ∧
      (runRequest p (fun c => (f c, .panics "json: Unmarshal(non-pointer string)")) onErr).escaped =
        false) ∧
    (∀ (msg : String) (w : Resp), (defaultOnErr msg w).status = 500) := by
  refine ⟨rfl, ?_, fun msg w => rfl⟩
  intro p f onErr
  exact ⟨(runRequest_panics p
      (fun c => (f c, .panics "json: Unmarshal(non-pointer string)")) onErr
      (f (Context.attach (poolGet p).1)) "json: Unmarshal(non-pointer string)" rfl).1,
    runRequest_escaped p (fun c => (f c, .panics "json: Unmarshal(non-pointer string)")) onErr⟩

/-- C10: every request whose parsed Content-Type is XML or form-encoded is
accepted by `Bind` with a nil error and without running the JSON decoder
(so the body is not read and the target not modified); every other parsed
Content-Type — including `application/json` and an absent header — goes
through the JSON decoder. -/
theorem C10_bind_content_type :
    (∀ res, Bind MIMEApplicationXML res = (.ok, false)) ∧
    (∀ res, Bind MIMETextXML res = (.ok, false)) ∧
    (∀ res, Bind MIMEApplicationForm res = (.ok, false)) ∧
    (∀ res, Bind MIMEMultipartForm res = (.ok, false)) ∧
    (∀ (ct : String) (res : DecodeResult),
      ct ≠ MIMEApplicationXML → ct ≠ MIMETextXML → ct ≠ MIMEApplicationForm →
      ct ≠ MIMEMultipartForm → Bind ct res = (res, true)) := by
  refine ⟨fun res => by simp [Bind], fun res => by simp [Bind], ?_, ?_, ?_⟩
  · intro res
    simp [Bind, MIMEApplicationForm, MIMEApplicationXML, MIMETextXML]
  · intro res
    simp [Bind, MIMEMultipartForm, MIMEApplicationXML, MIMETextXML]
  · intro ct res h1 h2 h3 h4
    simp [Bind, h1, h2, h3, h4]

/-- C10 witness: `application/json` and the empty (absent-header) media
type both route through the JSON decoder; a concrete decoder outcome is
returned unchanged. -/
theorem C10_bind_content_type_witness :
    Bind MIMEApplicationJSON (DecodeResult.fail "body must be valid JSON") =
      (DecodeResult.fail "body must be valid JSON", true) ∧
    Bind "" DecodeResult.ok = (DecodeResult.ok, true) :=
  ⟨C10_bind_content_type.2.2.2.2 MIMEApplicationJSON _
      (by decide) (by decide) (by decide) (by decide),
    C10_bind_content_type.2.2.2.2 "" _ (by decide) (by decide) (by decide) (by decide)⟩

end Mux
